/-
Verification of the transactional outbox event-delivery subsystem and the
notification dispatch service of the thiam-api repository.

The Go source is shallowly embedded: the outbox table is a list of rows, the
SQL repository operations (`FetchUnpublished`, `MarkPublished`, `MarkFailed`)
are pure functions on that list mirroring the generated SQL, the worker's
`processOutbox` loop is a recursive function that also records the trace of
port calls (bus publishes, row updates), and the notification service methods
are functions from an explicit dependency record to an outcome record listing
the external calls they perform.  Timestamps are `Nat`, UUIDs are `String`,
Go `int` is `Int`, Go `error` results are `Option String` (`none` = nil) and
fallible lookups are `Except String`.
-/
import Mathlib

/-! ## Outbox data model

Embeds `event.OutboxEvent` (internal/entity/event): ID, AggregateType,
AggregateID, EventType, Payload, CreatedAt, PublishedAt (nullable),
RetryCount, LastError (nullable). -/

structure OutboxEvent where
  id : String
  aggregateType : String
  aggregateID : String
  eventType : String
  payload : String
  createdAt : Nat
  publishedAt : Option Nat
  retryCount : Int
  lastError : Option String
deriving DecidableEq, Repr

/-- The ordering used by `ORDER BY created_at ASC`. -/
def createdAtLE (a b : OutboxEvent) : Prop := a.createdAt ≤ b.createdAt

instance : DecidableRel createdAtLE := fun a b => Nat.decLe a.createdAt b.createdAt

instance : IsTotal OutboxEvent createdAtLE := ⟨fun a b => Nat.le_total a.createdAt b.createdAt⟩

instance : IsTrans OutboxEvent createdAtLE := ⟨fun _ _ _ h h' => Nat.le_trans h h'⟩

/-- Embeds `OutboxRepo.FetchUnpublished` (internal/repo/persistent/outbox_postgres.go):
a negative `limit` is clamped to 0, then the SQL
`SELECT ... WHERE published_at IS NULL ORDER BY created_at ASC LIMIT limit`
runs against the table. -/
def FetchUnpublished (limit : Int) (table : List OutboxEvent) : List OutboxEvent :=
  let lim : Int := if limit < 0 then 0 else limit
  ((table.filter fun e => e.publishedAt.isNone).insertionSort createdAtLE).take lim.toNat

/-- Embeds `OutboxRepo.MarkPublished`: the SQL
`UPDATE outbox_events SET published_at = now WHERE id = ?` — the row's
`published_at` is set unconditionally to the call-time clock value `now`. -/
def MarkPublished (now : Nat) (id : String) (table : List OutboxEvent) : List OutboxEvent :=
  table.map fun e => if e.id = id then { e with publishedAt := some now } else e

/-- Embeds `OutboxRepo.MarkFailed`: the SQL
`UPDATE outbox_events SET retry_count = retry_count + 1, last_error = errMsg WHERE id = ?`. -/
def MarkFailed (id : String) (errMsg : String) (table : List OutboxEvent) : List OutboxEvent :=
  table.map fun e =>
    if e.id = id then { e with retryCount := e.retryCount + 1, lastError := some errMsg } else e

/-! ## Outbox worker

Embeds `Worker.processOutbox` (pkg/eventbus/worker.go).  The bus publisher is
a function `OutboxEvent → Option String` (`none` = publish succeeded, `some e`
= the `error` returned by `Publish`).  Besides the updated table, the
embedding records the trace of port calls the loop makes, so that "the worker
does not call the bus for this event" is a statement about the trace. -/

inductive WorkerAction where
  | publish (e : OutboxEvent)
  | markPublished (id : String)
  | markFailed (id : String) (err : String)
deriving DecidableEq, Repr

/-- The outbox-event id an action refers to. -/
def WorkerAction.targetId : WorkerAction → String
  | .publish e => e.id
  | .markPublished i => i
  | .markFailed i _ => i

/-- Embeds the `for _, e := range events` loop body of `processOutbox`
(worker.go lines 105-125): skip events at or above the retry ceiling,
otherwise publish; on publish error call `MarkFailed` and continue, on
success call `MarkPublished`.  `now` is the clock value `MarkPublished`
stamps during this tick. -/
def processEvents (pub : OutboxEvent → Option String) (maxRetries : Int) (now : Nat) :
    List OutboxEvent → List OutboxEvent → List OutboxEvent × List WorkerAction
  | [], table => (table, [])
  | e :: rest, table =>
    if e.retryCount ≥ maxRetries then
      processEvents pub maxRetries now rest table
    else
      match pub e with
      | some errMsg =>
        let t := MarkFailed e.id errMsg table
        let r := processEvents pub maxRetries now rest t
        (r.1, .publish e :: .markFailed e.id errMsg :: r.2)
      | none =>
        let t := MarkPublished now e.id table
        let r := processEvents pub maxRetries now rest t
        (r.1, .publish e :: .markPublished e.id :: r.2)

/-- Embeds `Worker.processOutbox` including its only error path: if the fetch
fails the wrapped error is returned (worker.go lines 100-103), otherwise the
loop runs and the function returns `nil`. -/
def processOutbox (pub : OutboxEvent → Option String) (maxRetries : Int) (now : Nat)
    (fetched : Except String (List OutboxEvent)) (table : List OutboxEvent) :
    Except String (List OutboxEvent × List WorkerAction) :=
  match fetched with
  | .error e => .error ("fetch unpublished: " ++ e)
  | .ok events => .ok (processEvents pub maxRetries now events table)

/-- One timer tick of the worker: fetch up to `batchSize` unpublished events
and run the processing loop over them. -/
def workerTick (pub : OutboxEvent → Option String) (maxRetries batchSize : Int) (now : Nat)
    (table : List OutboxEvent) : List OutboxEvent × List WorkerAction :=
  processEvents pub maxRetries now (FetchUnpublished batchSize table) table

/-- `n` consecutive worker ticks; the publisher's behaviour and the clock may
differ from tick to tick (`pubs k` / `nows k` for the `k`-th tick).  Returns
the final table and the per-tick traces. -/
def runTicks (pubs : Nat → OutboxEvent → Option String) (maxRetries batchSize : Int)
    (nows : Nat → Nat) : Nat → List OutboxEvent → List OutboxEvent × List (List WorkerAction)
  | 0, table => (table, [])
  | n + 1, table =>
    let r := workerTick (pubs 0) maxRetries batchSize (nows 0) table
    let rest := runTicks (fun k => pubs (k + 1)) maxRetries batchSize (fun k => nows (k + 1)) n r.1
    (rest.1, r.2 :: rest.2)

/-! ## Notification data model

Embeds the entity types of internal/entity/notification (notification.go and
the channel message types). -/

inductive NChannel where
  | email
  | sms
  | push
  | inApp
deriving DecidableEq, Repr

inductive NStatus where
  | pending
  | sent
  | failed
  | delivered
  | read
deriving DecidableEq, Repr

structure UserPreferences where
  userId : String
  emailEnabled : Bool
  smsEnabled : Bool
  pushEnabled : Bool
  inAppEnabled : Bool
  quietStart : Option String := none
  quietEnd : Option String := none
  updatedAt : Nat := 0
deriving DecidableEq, Repr

structure PushToken where
  id : String
  userId : String
  token : String
  platform : String
  deviceId : String
  active : Bool
  createdAt : Nat
  updatedAt : Nat
deriving DecidableEq, Repr

structure InAppNotification where
  id : String := ""
  userId : String
  notifType : String
  title : String
  body : String
  data : List (String × String) := []
  actionURL : Option String := none
  imageURL : Option String := none
  read : Bool := false
  readAt : Option Nat := none
  createdAt : Nat := 0
deriving DecidableEq, Repr

structure DeliveryLogRec where
  notificationId : String
  userId : String
  channel : NChannel
  status : NStatus
  errorMessage : Option String
  attempts : Nat
deriving DecidableEq, Repr

structure InAppMessage where
  userId : String
  notifType : String
  title : String
  body : String
  data : List (String × String) := []
  actionURL : String := ""
  imageURL : String := ""
deriving DecidableEq, Repr

structure PushMessage where
  userId : String
  title : String
  body : String
  data : List (String × String) := []
  imageURL : String := ""
  badge : Option Int := none
  sound : String := ""
deriving DecidableEq, Repr

structure EmailMessage where
  userId : String
  recipients : List String := []
  cc : List String := []
  bcc : List String := []
  subject : String
  body : String
  htmlBody : String := ""
deriving DecidableEq, Repr

/-! ## Persistent push-token repository

Embeds `PushTokenRepo.GetByUserID` (internal/repo/persistent/outbox_postgres.go).
The rows of the `push_tokens` table (migration: columns id, user_id, token,
platform, device_id, active, created_at, updated_at) are `PushTokenRow`. -/

structure PushTokenRow where
  id : String
  userId : String
  token : String
  platform : String
  deviceId : String
  active : Bool
  createdAt : Nat
  updatedAt : Nat
deriving DecidableEq, Repr

/-- Embeds `PushTokenRepo.GetByUserID`: the SELECT lists only the seven
columns id, user_id, token, platform, device_id, created_at, updated_at —
`active` is not selected — and the scan fills exactly those seven fields of
the Go `notification.PushToken` struct, leaving `Active` at its zero value
`false`. -/
def PushTokenRepoGetByUserID (table : List PushTokenRow) (userId : String) : List PushToken :=
  (table.filter fun r => r.userId == userId).map fun r =>
    { id := r.id, userId := r.userId, token := r.token, platform := r.platform,
      deviceId := r.deviceId, active := false, createdAt := r.createdAt,
      updatedAt := r.updatedAt }

/-! ## Notification dispatch service

Embeds `Service` (internal/usecase/notification/service.go).  Dependencies:
`prefsGet` is `prefsRepo.Get` for the one user a call touches, `tokensGet` is
`pushTokenRepo.GetByUserID`, `notifStore` is the result `notificationRepo.Store`
would return (`none` = nil error), `emailSender`/`pushSend` are the optional
configured senders (Go nil interface = `none`).  Each method returns an
outcome record: the Go return value plus the list of external calls made, so
that "the sender is never called" is a statement about the outcome. -/

structure NotifService where
  prefsGet : String → Except String UserPreferences
  tokensGet : String → Except String (List PushToken)
  notifStore : Option String
  emailSender : Option (EmailMessage → Option String)
  pushSend : Option (PushMessage → List String → Option String)

/-- Embeds `Service.logDelivery`: builds the DeliveryLog row handed to
`deliveryLogRepo.Store` (fire-and-forget; the store result is ignored). -/
def logDelivery (notificationId userId : String) (channel : NChannel) (status : NStatus)
    (errMsg : String) : DeliveryLogRec :=
  { notificationId := notificationId, userId := userId, channel := channel, status := status,
    errorMessage := if errMsg = "" then none else some errMsg, attempts := 1 }

structure InAppOutcome where
  result : Option String
  storedRows : List InAppNotification
deriving DecidableEq, Repr

/-- The `InAppNotification` row `SendInApp` builds from its message
(service.go lines 48-63). -/
def buildInApp (msg : InAppMessage) : InAppNotification :=
  { userId := msg.userId, notifType := msg.notifType, title := msg.title, body := msg.body,
    data := msg.data, read := false,
    actionURL := if msg.actionURL ≠ "" then some msg.actionURL else none,
    imageURL := if msg.imageURL ≠ "" then some msg.imageURL else none }

/-- Embeds `Service.SendInApp`: if the preference lookup succeeds and
`InAppEnabled` is false, return nil without storing; otherwise (including on
lookup error) build the row and store it, wrapping a store error. -/
def SendInApp (s : NotifService) (msg : InAppMessage) : InAppOutcome :=
  let proceed : Bool :=
    match s.prefsGet msg.userId with
    | .ok prefs => prefs.inAppEnabled
    | .error _ => true
  if proceed then
    let n := buildInApp msg
    match s.notifStore with
    | some e =>
      { result := some ("Service - SendInApp - s.notificationRepo.Store: " ++ e),
        storedRows := [n] }
    | none => { result := none, storedRows := [n] }
  else { result := none, storedRows := [] }

structure PushOutcome where
  result : Option String
  senderCalls : List (List String)
  logs : List DeliveryLogRec
deriving DecidableEq, Repr

/-- Embeds `Service.SendPush` after the preference gate (service.go lines
78-110): load tokens, return on lookup error, no-op on zero tokens, filter by
`Active`, no-op on zero active tokens or nil sender, otherwise one batched
send followed by one delivery-log row. -/
def sendPushTokenPhase (s : NotifService) (msg : PushMessage) : PushOutcome :=
  match s.tokensGet msg.userId with
  | .error e =>
    { result := some ("Service - SendPush - s.pushTokenRepo.GetByUserID: " ++ e),
      senderCalls := [], logs := [] }
  | .ok tokens =>
    if tokens.isEmpty then { result := none, senderCalls := [], logs := [] }
    else
      let tokenStrings := (tokens.filter fun t => t.active).map fun t => t.token
      if tokenStrings.isEmpty then { result := none, senderCalls := [], logs := [] }
      else
        match s.pushSend with
        | none => { result := none, senderCalls := [], logs := [] }
        | some send =>
          match send msg tokenStrings with
          | some err =>
            { result := some ("Service - SendPush - s.pushSender.Send: " ++ err),
              senderCalls := [tokenStrings],
              logs := [logDelivery "" msg.userId .push .failed err] }
          | none =>
            { result := none, senderCalls := [tokenStrings],
              logs := [logDelivery "" msg.userId .push .sent ""] }

/-- Embeds `Service.SendPush` (service.go lines 72-111): the Go guard is
`if err == nil && !prefs.PushEnabled { return nil }`, so a lookup error skips
the preference gate and the method proceeds to the token phase. -/
def SendPush (s : NotifService) (msg : PushMessage) : PushOutcome :=
  match s.prefsGet msg.userId with
  | .ok prefs =>
    if !prefs.pushEnabled then { result := none, senderCalls := [], logs := [] }
    else sendPushTokenPhase s msg
  | .error _ => sendPushTokenPhase s msg

structure EmailOutcome where
  result : Option String
  senderCalls : List EmailMessage
deriving DecidableEq, Repr

/-- Embeds `Service.SendEmail` (service.go lines 113-123): nil sender is a
no-op success; otherwise delegate, wrapping a sender error. -/
def SendEmail (s : NotifService) (msg : EmailMessage) : EmailOutcome :=
  match s.emailSender with
  | none => { result := none, senderCalls := [] }
  | some send =>
    match send msg with
    | some e =>
      { result := some ("Service - SendEmail - s.emailSender.Send: " ++ e), senderCalls := [msg] }
    | none => { result := none, senderCalls := [msg] }

/-! ## FCM push gateway adapter

Embeds `FCMSender.SendWithResult` (pkg/notify/fcm.go).  The HTTP exchange with
the gateway is abstracted as `resp : Except String FCMResponse`: `.error`
stands for a transport failure, a non-200 status or a decode failure (every
path of the Go code that returns a nil result with an error), `.ok` for a
decoded 200 response. -/

structure FCMResult where
  messageId : String := ""
  registrationId : String := ""
  error : String := ""
deriving DecidableEq, Repr

structure FCMResponse where
  multicastId : Int := 0
  success : Int
  failure : Int
  results : List FCMResult
deriving DecidableEq, Repr

structure FailedToken where
  token : String
  error : String
deriving DecidableEq, Repr

structure FCMSendResult where
  successCount : Int
  failureCount : Int
  failedTokens : List FailedToken
deriving DecidableEq, Repr

/-- Embeds the `for i, r := range fcmResp.Results` collection loop of
`SendWithResult`: each result with a non-empty error contributes
`FailedToken{Token: tokens[i], Error: r.Error}`.  The Go loop indexes
`tokens` by the position of the result; the recursion walks the two lists in
lockstep, which agrees with the Go code whenever the response has no more
results than tokens (beyond that the Go code would panic on the index). -/
def collectFailedTokens : List String → List FCMResult → List FailedToken
  | t :: ts, r :: rs =>
    if r.error ≠ "" then { token := t, error := r.error } :: collectFailedTokens ts rs
    else collectFailedTokens ts rs
  | _, _ => []

/-- Embeds `FCMSender.SendWithResult` (fcm.go lines 222-285): empty token
list short-circuits to an empty result; a transport/status/decode failure is
an error; otherwise the structured result copies the gateway's success and
failure counts and, when the failure count is positive, lists the failed
tokens with their error strings. -/
def SendWithResult (tokens : List String) (resp : Except String FCMResponse) :
    Except String FCMSendResult :=
  if tokens.isEmpty then .ok { successCount := 0, failureCount := 0, failedTokens := [] }
  else
    match resp with
    | .error e => .error e
    | .ok r =>
      .ok { successCount := r.success, failureCount := r.failure,
            failedTokens :=
              if r.failure > 0 then collectFailedTokens tokens r.results else [] }

/-! ## Helper lemmas about the outbox store -/

lemma fetch_mem {e : OutboxEvent} {limit : Int} {table : List OutboxEvent}
    (h : e ∈ FetchUnpublished limit table) : e ∈ table ∧ e.publishedAt = none := by
  unfold FetchUnpublished at h
  have h1 : e ∈ (table.filter fun x => x.publishedAt.isNone).insertionSort createdAtLE :=
    (List.take_sublist _ _).subset h
  have h2 : e ∈ table.filter fun x => x.publishedAt.isNone :=
    (List.perm_insertionSort createdAtLE _).mem_iff.1 h1
  rw [List.mem_filter] at h2
  exact ⟨h2.1, Option.isNone_iff_eq_none.1 h2.2⟩

lemma fetch_sorted (limit : Int) (table : List OutboxEvent) :
    List.Sorted createdAtLE (FetchUnpublished limit table) :=
  List.Pairwise.sublist (List.take_sublist _ _) (List.sorted_insertionSort createdAtLE _)

lemma fetch_len (limit : Int) (table : List OutboxEvent) :
    (FetchUnpublished limit table).length ≤ limit.toNat := by
  unfold FetchUnpublished
  by_cases h : limit < 0
  · simp [h]
  · simp only [h, if_neg]
    exact le_trans (List.length_take_le _ _) (by simp [h])

lemma fetch_nonpos {limit : Int} (table : List OutboxEvent) (h : limit ≤ 0) :
    FetchUnpublished limit table = [] := by
  unfold FetchUnpublished
  by_cases h' : limit < 0
  · simp [h']
  · have : limit = 0 := le_antisymm h (not_lt.1 h')
    simp [this]

/-- Claim C9: for every limit, FetchUnpublished returns only events whose
published_at is null and that are rows of the table, ordered by created_at
ascending, at most `limit` of them; a negative or zero limit yields no rows
(the embedding is total, so no error is possible on the limit path). -/
theorem FetchUnpublished_spec (limit : Int) (table : List OutboxEvent) :
    (∀ e ∈ FetchUnpublished limit table, e ∈ table ∧ e.publishedAt = none) ∧
    List.Sorted createdAtLE (FetchUnpublished limit table) ∧
    (FetchUnpublished limit table).length ≤ limit.toNat ∧
    (limit ≤ 0 → FetchUnpublished limit table = []) :=
  ⟨fun _ he => fetch_mem he, fetch_sorted limit table, fetch_len limit table,
    fetch_nonpos table⟩

def sampleUnpublished : OutboxEvent :=
  { id := "e1", aggregateType := "user", aggregateID := "1", eventType := "user.created",
    payload := "{}", createdAt := 5, publishedAt := none, retryCount := 0, lastError := none }

def samplePublished : OutboxEvent :=
  { id := "e2", aggregateType := "user", aggregateID := "2", eventType := "user.updated",
    payload := "{}", createdAt := 3, publishedAt := some 9, retryCount := 0, lastError := none }

theorem FetchUnpublished_spec_witness :
    (sampleUnpublished ∈ FetchUnpublished 2 [samplePublished, sampleUnpublished] ∧
      sampleUnpublished.publishedAt = none) ∧
    FetchUnpublished (-3) [samplePublished, sampleUnpublished] = [] :=
  ⟨⟨by decide, (FetchUnpublished_spec 2 [samplePublished, sampleUnpublished]).1
      sampleUnpublished (by decide) |>.2⟩,
    (FetchUnpublished_spec (-3) [samplePublished, sampleUnpublished]).2.2.2 (by decide)⟩

/-- Claim C3 (counterexample): `MarkPublished` overwrites `published_at`
unconditionally with the call-time clock value, so a second call with a later
clock changes the stored value from `some 1` to `some 2`. -/
theorem MarkPublished_twice_changes_stored_value :
    (MarkPublished 1 "e1" [sampleUnpublished]).map (fun e => e.publishedAt) = [some 1] ∧
    (MarkPublished 2 "e1" (MarkPublished 1 "e1" [sampleUnpublished])).map
      (fun e => e.publishedAt) = [some 2] := by
  decide

/-- Claim C3 (amended): calling MarkPublished twice succeeds and leaves
published_at set (non-null) on the targeted row; the second call overwrites
the stored timestamp with its own clock value, so the composite equals a
single call at the second clock value (in particular, repeating a call with
the same clock value changes nothing). -/
theorem MarkPublished_second_call_overwrites (t1 t2 : Nat) (i : String)
    (table : List OutboxEvent) :
    MarkPublished t2 i (MarkPublished t1 i table) = MarkPublished t2 i table ∧
    ∀ e ∈ MarkPublished t2 i (MarkPublished t1 i table),
      e.id = i → e.publishedAt = some t2 := by
  constructor
  · induction table with
    | nil => rfl
    | cons a l ih =>
      simp only [MarkPublished, List.map_cons] at ih ⊢
      by_cases h : a.id = i
      · simp [h, ih]
      · simp [h, ih]
  · intro e he hid
    simp only [MarkPublished, List.map_map, List.mem_map] at he
    obtain ⟨a, _, rfl⟩ := he
    by_cases h : a.id = i
    · simp [h]
    · simp only [Function.comp, if_neg h] at hid ⊢
      exact absurd hid h

theorem MarkPublished_second_call_overwrites_witness :
    MarkPublished 2 "e1" (MarkPublished 1 "e1" [sampleUnpublished]) =
      MarkPublished 2 "e1" [sampleUnpublished] ∧
    ∀ e ∈ MarkPublished 2 "e1" (MarkPublished 1 "e1" [sampleUnpublished]),
      e.id = "e1" → e.publishedAt = some 2 :=
  MarkPublished_second_call_overwrites 1 2 "e1" [sampleUnpublished]

/-! ## Retry-count monotonicity under the worker's store operations -/

/-- Row-wise comparison: the retry counter did not decrease. -/
def retryLE (a b : OutboxEvent) : Prop := a.retryCount ≤ b.retryCount

lemma retryLE_list_refl (t : List OutboxEvent) : List.Forall₂ retryLE t t := by
  induction t with
  | nil => exact .nil
  | cons a l ih => exact .cons (le_refl a.retryCount) ih

lemma retryLE_list_trans {t1 t2 t3 : List OutboxEvent}
    (h1 : List.Forall₂ retryLE t1 t2) (h2 : List.Forall₂ retryLE t2 t3) :
    List.Forall₂ retryLE t1 t3 := by
  induction h1 generalizing t3 with
  | nil => cases h2; exact .nil
  | cons hab _ ih =>
    cases h2 with
    | cons hbc h' => exact .cons (le_trans hab hbc) (ih h')

lemma markPublished_retryLE (now : Nat) (i : String) (t : List OutboxEvent) :
    List.Forall₂ retryLE t (MarkPublished now i t) := by
  induction t with
  | nil => exact .nil
  | cons a l ih =>
    simp only [MarkPublished, List.map_cons]
    refine .cons ?_ ih
    by_cases h : a.id = i <;> simp [retryLE, h]

lemma markFailed_retryLE (i msg : String) (t : List OutboxEvent) :
    List.Forall₂ retryLE t (MarkFailed i msg t) := by
  induction t with
  | nil => exact .nil
  | cons a l ih =>
    simp only [MarkFailed, List.map_cons]
    refine .cons ?_ ih
    by_cases h : a.id = i <;> simp [retryLE, h]

lemma processEvents_retryLE (pub : OutboxEvent → Option String) (maxR : Int) (now : Nat) :
    ∀ (batch t : List OutboxEvent),
      List.Forall₂ retryLE t (processEvents pub maxR now batch t).1 := by
  intro batch
  induction batch with
  | nil => intro t; exact retryLE_list_refl t
  | cons b rest ih =>
    intro t
    simp only [processEvents]
    by_cases h : b.retryCount ≥ maxR
    · simpa [h] using ih t
    · simp only [if_neg h]
      cases hp : pub b with
      | some msg =>
        simpa [hp] using retryLE_list_trans (markFailed_retryLE b.id msg t) (ih _)
      | none =>
        simpa [hp] using retryLE_list_trans (markPublished_retryLE now b.id t) (ih _)

/-- Claim C8: `MarkFailed(id, err)` increments the matching row's
`retry_count` by exactly one and overwrites `last_error` with the error
message, changing no other field (in particular never `published_at`), and
leaves every non-matching row untouched; consequently a whole worker tick
never decreases any row's `retry_count`. -/
theorem MarkFailed_frame_and_retry_monotone (i msg : String) (table : List OutboxEvent)
    (pub : OutboxEvent → Option String) (maxRetries batchSize : Int) (now : Nat) :
    List.Forall₂ (fun old new =>
        new.id = old.id ∧ new.aggregateType = old.aggregateType ∧
        new.aggregateID = old.aggregateID ∧ new.eventType = old.eventType ∧
        new.payload = old.payload ∧ new.createdAt = old.createdAt ∧
        new.publishedAt = old.publishedAt ∧
        (old.id = i → new.retryCount = old.retryCount + 1 ∧ new.lastError = some msg) ∧
        (old.id ≠ i → new = old))
      table (MarkFailed i msg table) ∧
    List.Forall₂ retryLE table (workerTick pub maxRetries batchSize now table).1 := by
  constructor
  · induction table with
    | nil => exact .nil
    | cons a l ih =>
      simp only [MarkFailed, List.map_cons]
      refine .cons ?_ ih
      by_cases h : a.id = i
      · simp [h]
      · simp [h]
  · exact processEvents_retryLE pub maxRetries now _ table

/-! ## Trace lemmas for the worker loop -/

lemma markPublished_ids (now : Nat) (i : String) (t : List OutboxEvent) :
    (MarkPublished now i t).map OutboxEvent.id = t.map OutboxEvent.id := by
  induction t with
  | nil => rfl
  | cons a l ih =>
    simp only [MarkPublished, List.map_cons] at ih ⊢
    by_cases h : a.id = i <;> simp [h, ih]

lemma markFailed_ids (i msg : String) (t : List OutboxEvent) :
    (MarkFailed i msg t).map OutboxEvent.id = t.map OutboxEvent.id := by
  induction t with
  | nil => rfl
  | cons a l ih =>
    simp only [MarkFailed, List.map_cons] at ih ⊢
    by_cases h : a.id = i <;> simp [h, ih]

lemma mem_markPublished_ne {e : OutboxEvent} {t : List OutboxEvent} (now : Nat) {i : String}
    (he : e ∈ t) (hne : e.id ≠ i) : e ∈ MarkPublished now i t :=
  List.mem_map.2 ⟨e, he, by simp [hne]⟩

lemma mem_markFailed_ne {e : OutboxEvent} {t : List OutboxEvent} {i msg : String}
    (he : e ∈ t) (hne : e.id ≠ i) : e ∈ MarkFailed i msg t :=
  List.mem_map.2 ⟨e, he, by simp [hne]⟩

lemma processEvents_ids (pub : OutboxEvent → Option String) (maxR : Int) (now : Nat) :
    ∀ (batch t : List OutboxEvent),
      ((processEvents pub maxR now batch t).1).map OutboxEvent.id = t.map OutboxEvent.id := by
  intro batch
  induction batch with
  | nil => intro t; rfl
  | cons b rest ih =>
    intro t
    simp only [processEvents]
    by_cases h : b.retryCount ≥ maxR
    · simpa [h] using ih t
    · simp only [if_neg h]
      cases hp : pub b with
      | some msg => simpa [hp] using (ih _).trans (markFailed_ids b.id msg t)
      | none => simpa [hp] using (ih _).trans (markPublished_ids now b.id t)

/-- If every batch entry sharing the id of `e` is at or above the retry
ceiling, the processing loop produces no action targeting `e.id` and leaves
the row `e` in place untouched. -/
lemma processEvents_avoids {e : OutboxEvent} (pub : OutboxEvent → Option String)
    (maxR : Int) (now : Nat) :
    ∀ (batch t : List OutboxEvent),
      (∀ b ∈ batch, b.id = e.id → maxR ≤ b.retryCount) → e ∈ t →
      e ∈ (processEvents pub maxR now batch t).1 ∧
      ∀ a ∈ (processEvents pub maxR now batch t).2, a.targetId ≠ e.id := by
  intro batch
  induction batch with
  | nil => intro t _ he; exact ⟨he, by simp [processEvents]⟩
  | cons b rest ih =>
    intro t hb he
    simp only [processEvents]
    by_cases h : b.retryCount ≥ maxR
    · simpa [h] using ih t (fun x hx => hb x (List.mem_cons_of_mem b hx)) he
    · have hbid : b.id ≠ e.id := fun heq => h (hb b (List.mem_cons_self b rest) heq)
      simp only [if_neg h]
      cases hp : pub b with
      | some msg =>
        obtain ⟨h1, h2⟩ := ih (MarkFailed b.id msg t)
          (fun x hx => hb x (List.mem_cons_of_mem b hx))
          (mem_markFailed_ne he (Ne.symm hbid))
        refine ⟨h1, ?_⟩
        intro a ha
        simp only [List.mem_cons] at ha
        rcases ha with rfl | rfl | ha'
        · exact hbid
        · exact hbid
        · exact h2 a ha'
      | none =>
        obtain ⟨h1, h2⟩ := ih (MarkPublished now b.id t)
          (fun x hx => hb x (List.mem_cons_of_mem b hx))
          (mem_markPublished_ne now he (Ne.symm hbid))
        refine ⟨h1, ?_⟩
        intro a ha
        simp only [List.mem_cons] at ha
        rcases ha with rfl | rfl | ha'
        · exact hbid
        · exact hbid
        · exact h2 a ha'

/-- One tick neither touches nor targets a row at or above the retry
ceiling, and preserves the id column. -/
lemma workerTick_avoids {e : OutboxEvent} (pub : OutboxEvent → Option String)
    (maxR bs : Int) (now : Nat) (t : List OutboxEvent)
    (hnd : (t.map OutboxEvent.id).Nodup) (he : e ∈ t) (hr : maxR ≤ e.retryCount) :
    e ∈ (workerTick pub maxR bs now t).1 ∧
    (∀ a ∈ (workerTick pub maxR bs now t).2, a.targetId ≠ e.id) ∧
    ((workerTick pub maxR bs now t).1).map OutboxEvent.id = t.map OutboxEvent.id := by
  have hbatch : ∀ b ∈ FetchUnpublished bs t, b.id = e.id → maxR ≤ b.retryCount := by
    intro b hbmem heq
    have hbt : b ∈ t := (fetch_mem hbmem).1
    have : b = e := List.inj_on_of_nodup_map hnd hbt he heq
    rw [this]
    exact hr
  obtain ⟨h1, h2⟩ := processEvents_avoids pub maxR now (FetchUnpublished bs t) t hbatch he
  exact ⟨h1, h2, processEvents_ids pub maxR now _ t⟩

/-- Claim C1: an event of the table whose retry_count has reached the
configured maxRetries is abandoned in place — across any number of worker
ticks the row stays in the table unchanged and no bus publish, MarkPublished
or MarkFailed call ever targets its id. -/
theorem worker_skips_event_at_retry_ceiling
    (pubs : Nat → OutboxEvent → Option String) (nows : Nat → Nat)
    (maxRetries batchSize : Int) (n : Nat) (table : List OutboxEvent) (e : OutboxEvent)
    (hnd : (table.map OutboxEvent.id).Nodup) (he : e ∈ table)
    (hr : maxRetries ≤ e.retryCount) :
    e ∈ (runTicks pubs maxRetries batchSize nows n table).1 ∧
    ∀ tr ∈ (runTicks pubs maxRetries batchSize nows n table).2,
      ∀ a ∈ tr, a.targetId ≠ e.id := by
  induction n generalizing pubs nows table with
  | zero => exact ⟨he, by simp [runTicks]⟩
  | succ n ih =>
    obtain ⟨h1, h2, h3⟩ :=
      workerTick_avoids (pubs 0) maxRetries batchSize (nows 0) table hnd he hr
    have hnd' : (((workerTick (pubs 0) maxRetries batchSize (nows 0) table).1).map
        OutboxEvent.id).Nodup := by rw [h3]; exact hnd
    obtain ⟨ih1, ih2⟩ := ih (fun k => pubs (k + 1)) (fun k => nows (k + 1)) _ hnd' h1
    refine ⟨ih1, ?_⟩
    intro tr htr a ha
    simp only [runTicks, List.mem_cons] at htr
    rcases htr with rfl | htr'
    · exact h2 a ha
    · exact ih2 tr htr' a ha

def exhaustedEvent : OutboxEvent :=
  { id := "dead1", aggregateType := "user", aggregateID := "9", eventType := "user.created",
    payload := "{}", createdAt := 1, publishedAt := none, retryCount := 5,
    lastError := some "network error" }

theorem worker_skips_event_at_retry_ceiling_witness :
    exhaustedEvent ∈ (runTicks (fun _ _ => none) 5 100 (fun _ => 0) 3 [exhaustedEvent]).1 ∧
    ∀ tr ∈ (runTicks (fun _ _ => none) 5 100 (fun _ => 0) 3 [exhaustedEvent]).2,
      ∀ a ∈ tr, a.targetId ≠ exhaustedEvent.id :=
  worker_skips_event_at_retry_ceiling (fun _ _ => none) (fun _ => 0) 5 100 3
    [exhaustedEvent] exhaustedEvent (by decide) (by decide) (by decide)

/-- For a batch entry below the retry ceiling, the loop always calls the bus
publish port with it, and marks it failed or published according to the
publish outcome. -/
lemma processEvents_mem_actions {e : OutboxEvent} (pub : OutboxEvent → Option String)
    (maxR : Int) (now : Nat) (hr : e.retryCount < maxR) :
    ∀ (batch t : List OutboxEvent), e ∈ batch →
      WorkerAction.publish e ∈ (processEvents pub maxR now batch t).2 ∧
      (∀ m, pub e = some m →
        WorkerAction.markFailed e.id m ∈ (processEvents pub maxR now batch t).2) ∧
      (pub e = none →
        WorkerAction.markPublished e.id ∈ (processEvents pub maxR now batch t).2) := by
  intro batch
  induction batch with
  | nil => intro t he; exact absurd he (List.not_mem_nil e)
  | cons b rest ih =>
    intro t he
    simp only [processEvents]
    rcases List.mem_cons.1 he with rfl | he'
    · rw [if_neg (not_le.2 hr)]
      cases hp : pub e with
      | some m =>
        refine ⟨by simp, ?_, ?_⟩
        · intro m' hm'
          injection hm' with hm'
          subst hm'
          simp
        · intro hnone
          exact absurd hnone (by simp)
      | none =>
        refine ⟨by simp, ?_, by intro _; simp⟩
        intro m' hm'
        exact absurd hm' (by simp)
    · by_cases h : b.retryCount ≥ maxR
      · simpa [h] using ih t he'
      · simp only [if_neg h]
        cases hp : pub b with
        | some m =>
          obtain ⟨h1, h2, h3⟩ := ih (MarkFailed b.id m t) he'
          exact ⟨by simp [h1], fun m' hm' => by simp [h2 m' hm'],
            fun hn => by simp [h3 hn]⟩
        | none =>
          obtain ⟨h1, h2, h3⟩ := ih (MarkPublished now b.id t) he'
          exact ⟨by simp [h1], fun m' hm' => by simp [h2 m' hm'],
            fun hn => by simp [h3 hn]⟩

/-- Claim C2: within a tick the events are processed independently — every
batch entry below the retry ceiling is passed to the bus; on success
MarkPublished is called on its id, on failure MarkFailed is called with the
error; this holds for every entry regardless of the outcomes of the others,
and the tick never surfaces an event's failure as a tick error (the only
error path of processOutbox is a failed fetch). -/
theorem worker_isolates_event_failures
    (pub : OutboxEvent → Option String) (maxRetries : Int) (now : Nat)
    (batch table : List OutboxEvent) (e : OutboxEvent)
    (he : e ∈ batch) (hr : e.retryCount < maxRetries) :
    WorkerAction.publish e ∈ (processEvents pub maxRetries now batch table).2 ∧
    (∀ m, pub e = some m →
      WorkerAction.markFailed e.id m ∈ (processEvents pub maxRetries now batch table).2) ∧
    (pub e = none →
      WorkerAction.markPublished e.id ∈ (processEvents pub maxRetries now batch table).2) ∧
    ∀ msg, processOutbox pub maxRetries now (.ok batch) table ≠ Except.error msg := by
  obtain ⟨h1, h2, h3⟩ := processEvents_mem_actions pub maxRetries now hr batch table he
  exact ⟨h1, h2, h3, by simp [processOutbox]⟩

def failingEvent : OutboxEvent :=
  { id := "A", aggregateType := "user", aggregateID := "1", eventType := "user.created",
    payload := "{}", createdAt := 1, publishedAt := none, retryCount := 0, lastError := none }

def succeedingEvent : OutboxEvent :=
  { id := "B", aggregateType := "user", aggregateID := "2", eventType := "user.updated",
    payload := "{}", createdAt := 2, publishedAt := none, retryCount := 0, lastError := none }

def isolationPub : OutboxEvent → Option String :=
  fun ev => if ev.id = "A" then some "network error" else none

theorem worker_isolates_event_failures_witness :
    WorkerAction.markPublished "B" ∈
      (processEvents isolationPub 5 7 [failingEvent, succeedingEvent]
        [failingEvent, succeedingEvent]).2 ∧
    WorkerAction.markFailed "A" "network error" ∈
      (processEvents isolationPub 5 7 [failingEvent, succeedingEvent]
        [failingEvent, succeedingEvent]).2 := by
  have hB := worker_isolates_event_failures isolationPub 5 7
    [failingEvent, succeedingEvent] [failingEvent, succeedingEvent] succeedingEvent
    (by decide) (by decide)
  have hA := worker_isolates_event_failures isolationPub 5 7
    [failingEvent, succeedingEvent] [failingEvent, succeedingEvent] failingEvent
    (by decide) (by decide)
  exact ⟨hB.2.2.1 (by decide), hA.2.1 "network error" (by decide)⟩

/-! ## Notification service theorems -/

/-- Claim C4 (failing input): the `push_tokens` table holds one row for user
"u1" with `active = true`, the user's preferences enable push, and a push
sender is configured; yet `SendPush` composed with the persistent
`PushTokenRepo.GetByUserID` makes no sender call and records no DeliveryLog
row, because the repository's SELECT omits the `active` column, so every
returned token carries `Active = false` and the service filters it out. -/
def activeTokenRow : PushTokenRow :=
  { id := "pt1", userId := "u1", token := "tok1", platform := "ios", deviceId := "d1",
    active := true, createdAt := 0, updatedAt := 0 }

def allEnabledPrefs : UserPreferences :=
  { userId := "u1", emailEnabled := true, smsEnabled := true, pushEnabled := true,
    inAppEnabled := true }

def composedService : NotifService :=
  { prefsGet := fun _ => .ok allEnabledPrefs,
    tokensGet := fun uid => .ok (PushTokenRepoGetByUserID [activeTokenRow] uid),
    notifStore := none,
    emailSender := none,
    pushSend := some fun _ _ => none }

def pushMsgU1 : PushMessage := { userId := "u1", title := "hello", body := "world" }

theorem sendPush_persistent_repo_drops_active_tokens :
    ([activeTokenRow].filter fun r => r.userId == "u1").map (fun r => r.active) = [true] ∧
    (PushTokenRepoGetByUserID [activeTokenRow] "u1").map (fun t => t.active) = [false] ∧
    SendPush composedService pushMsgU1 =
      { result := none, senderCalls := [], logs := [] } := by
  decide

/-- Claim C5 (counterexample): with a preferences lookup that fails, one
stored active token and a configured sender, `SendPush` does call the push
sender (with the token) and returns success — it does not treat the error as
"channel disabled". -/
def activePushToken : PushToken :=
  { id := "pt1", userId := "u1", token := "tok1", platform := "ios", deviceId := "d1",
    active := true, createdAt := 0, updatedAt := 0 }

def prefsErrorService : NotifService :=
  { prefsGet := fun _ => .error "prefs lookup failed",
    tokensGet := fun _ => .ok [activePushToken],
    notifStore := none,
    emailSender := none,
    pushSend := some fun _ _ => none }

theorem sendPush_prefs_error_still_sends :
    (SendPush prefsErrorService pushMsgU1).senderCalls = [["tok1"]] ∧
    (SendPush prefsErrorService pushMsgU1).result = none := by
  decide

/-- Claim C5 (amended): if the preferences lookup returns an error, SendPush
skips the disabled-check and proceeds exactly as if the channel were enabled
(fail-open at the preference gate): its outcome equals the outcome under a
successful lookup with PushEnabled = true, namely the token phase; only the
absence of active tokens or of a configured sender yields a success-no-op. -/
theorem sendPush_prefs_error_fail_open (s : NotifService) (msg : PushMessage)
    (e : String) (p : UserPreferences)
    (he : s.prefsGet msg.userId = .error e) (hp : p.pushEnabled = true) :
    SendPush s msg = SendPush { s with prefsGet := fun _ => .ok p } msg ∧
    SendPush s msg = sendPushTokenPhase s msg := by
  have h2 : SendPush s msg = sendPushTokenPhase s msg := by
    simp [SendPush, he]
  refine ⟨?_, h2⟩
  rw [h2]
  show sendPushTokenPhase s msg =
    SendPush { s with prefsGet := fun _ => .ok p } msg
  simp [SendPush, hp, sendPushTokenPhase]

theorem sendPush_prefs_error_fail_open_witness :
    SendPush prefsErrorService pushMsgU1 =
      SendPush { prefsErrorService with prefsGet := fun _ => .ok allEnabledPrefs }
        pushMsgU1 ∧
    SendPush prefsErrorService pushMsgU1 = sendPushTokenPhase prefsErrorService pushMsgU1 :=
  sendPush_prefs_error_fail_open prefsErrorService pushMsgU1 "prefs lookup failed"
    allEnabledPrefs rfl rfl

/-- Claim C6: under a preference-lookup error, SendInApp still hands the
built InAppNotification row to the store (fail-open) and returns exactly the
store's result, while SendPush whose token lookup resolves to zero tokens or
to tokens that are all inactive makes no sender call, writes no log and
returns success (fail-closed by lack of target, not by error). -/
theorem prefs_error_asymmetry (s : NotifService) (e : String)
    (msgIA : InAppMessage) (msgP : PushMessage)
    (hia : s.prefsGet msgIA.userId = .error e) :
    ((SendInApp s msgIA).storedRows = [buildInApp msgIA] ∧
      (s.notifStore = none → (SendInApp s msgIA).result = none) ∧
      (∀ er, s.notifStore = some er → (SendInApp s msgIA).result =
        some ("Service - SendInApp - s.notificationRepo.Store: " ++ er))) ∧
    ((s.tokensGet msgP.userId = .ok [] →
      SendPush s msgP = { result := none, senderCalls := [], logs := [] }) ∧
     (∀ toks, s.tokensGet msgP.userId = .ok toks → (∀ t ∈ toks, t.active = false) →
      SendPush s msgP = { result := none, senderCalls := [], logs := [] })) := by
  constructor
  · refine ⟨?_, ?_, ?_⟩
    · simp [SendInApp, hia]
      cases s.notifStore <;> simp
    · intro hns
      simp [SendInApp, hia, hns]
    · intro er her
      simp [SendInApp, hia, her]
  · have tokenPhase_noop : ∀ toks, s.tokensGet msgP.userId = .ok toks →
        (∀ t ∈ toks, t.active = false) →
        sendPushTokenPhase s msgP = { result := none, senderCalls := [], logs := [] } := by
      intro toks htoks hall
      have hfilter : toks.filter (fun t => t.active) = [] := by
        rw [List.filter_eq_nil_iff]
        intro t ht
        simp [hall t ht]
      cases toks with
      | nil => simp [sendPushTokenPhase, htoks]
      | cons t0 ts =>
        simp [sendPushTokenPhase, htoks, hfilter]
    have push_noop : ∀ toks, s.tokensGet msgP.userId = .ok toks →
        (∀ t ∈ toks, t.active = false) →
        SendPush s msgP = { result := none, senderCalls := [], logs := [] } := by
      intro toks htoks hall
      unfold SendPush
      cases hpg : s.prefsGet msgP.userId with
      | ok p =>
        by_cases hpe : p.pushEnabled
        · simp [hpe, tokenPhase_noop toks htoks hall]
        · simp [hpe]
      | error _ => exact tokenPhase_noop toks htoks hall
    exact ⟨fun h0 => push_noop [] h0 (by simp), push_noop⟩

def inactivePushToken : PushToken :=
  { id := "pt1", userId := "u1", token := "tok1", platform := "ios", deviceId := "d1",
    active := false, createdAt := 0, updatedAt := 0 }

def inactiveTokensService : NotifService :=
  { prefsGet := fun _ => .error "prefs lookup failed",
    tokensGet := fun _ => .ok [inactivePushToken],
    notifStore := none,
    emailSender := none,
    pushSend := some fun _ _ => none }

def inAppMsgU1 : InAppMessage :=
  { userId := "u1", notifType := "welcome", title := "hi", body := "there" }

theorem prefs_error_asymmetry_witness :
    (SendInApp inactiveTokensService inAppMsgU1).storedRows = [buildInApp inAppMsgU1] ∧
    (SendInApp inactiveTokensService inAppMsgU1).result = none ∧
    SendPush inactiveTokensService pushMsgU1 =
      { result := none, senderCalls := [], logs := [] } := by
  have h := prefs_error_asymmetry inactiveTokensService "prefs lookup failed"
    inAppMsgU1 pushMsgU1 rfl
  exact ⟨h.1.1, h.1.2.1 rfl, h.2.2 _ rfl (by decide)⟩

/-- Claim C10: SendEmail never reads the user's notification preferences —
replacing the preference source changes nothing about its behaviour; with no
email sender configured it is a success no-op with no sender call, and with a
sender configured it always delegates (one call) and errs iff the sender
errs, regardless of any EmailEnabled flag. -/
theorem sendEmail_ignores_preferences (s : NotifService)
    (p1 p2 : String → Except String UserPreferences) (msg : EmailMessage) :
    SendEmail { s with prefsGet := p1 } msg = SendEmail { s with prefsGet := p2 } msg ∧
    (s.emailSender = none → SendEmail s msg = { result := none, senderCalls := [] }) ∧
    (∀ f, s.emailSender = some f →
      (SendEmail s msg).senderCalls = [msg] ∧
      ((SendEmail s msg).result.isSome ↔ (f msg).isSome)) := by
  refine ⟨rfl, ?_, ?_⟩
  · intro hns
    simp [SendEmail, hns]
  · intro f hf
    cases hfm : f msg with
    | some er => simp [SendEmail, hf, hfm]
    | none => simp [SendEmail, hf, hfm]

def disabledEmailPrefs : UserPreferences :=
  { userId := "u1", emailEnabled := false, smsEnabled := false, pushEnabled := false,
    inAppEnabled := false }

def emailService : NotifService :=
  { prefsGet := fun _ => .ok disabledEmailPrefs,
    tokensGet := fun _ => .ok [],
    notifStore := none,
    emailSender := some fun _ => none,
    pushSend := none }

def emailMsgU1 : EmailMessage :=
  { userId := "u1", recipients := ["a@b.c"], subject := "s", body := "b" }

theorem sendEmail_ignores_preferences_witness :
    SendEmail { emailService with prefsGet := fun _ => .ok disabledEmailPrefs } emailMsgU1 =
      SendEmail { emailService with prefsGet := fun _ => .error "no row" } emailMsgU1 ∧
    (SendEmail emailService emailMsgU1).senderCalls = [emailMsgU1] := by
  have h := sendEmail_ignores_preferences emailService
    (fun _ => .ok disabledEmailPrefs) (fun _ => .error "no row") emailMsgU1
  exact ⟨h.1, (h.2.2 _ rfl).1⟩

/-! ## FCM partial-failure reporting -/

lemma collectFailedTokens_mem :
    ∀ (ts : List String) (rs : List FCMResult) (p : String × FCMResult),
      p ∈ ts.zip rs → p.2.error ≠ "" →
      ({ token := p.1, error := p.2.error } : FailedToken) ∈ collectFailedTokens ts rs := by
  intro ts
  induction ts with
  | nil => intro rs p hp _; simp [List.zip] at hp
  | cons t ts' ih =>
    intro rs p hp herr
    cases rs with
    | nil => simp [List.zip] at hp
    | cons r rs' =>
      simp only [List.zip_cons_cons, List.mem_cons] at hp
      rcases hp with rfl | hp'
      · simp only [collectFailedTokens, if_pos herr]
        exact List.mem_cons_self _ _
      · simp only [collectFailedTokens]
        by_cases h : r.error ≠ ""
        · rw [if_pos h]
          exact List.mem_cons_of_mem _ (ih rs' p hp' herr)
        · rw [if_neg h]
          exact ih rs' p hp' herr

/-- Claim C7: when the gateway's decoded response reports per-token outcomes
over a non-empty submitted token list (its failure count agreeing with the
number of failed results), SendWithResult returns a structured result — not
an error — whose SuccessCount and FailureCount copy the gateway's counts and
whose failure list contains every (token, error) pair the gateway reported
failed. -/
theorem sendWithResult_reports_partial_failure
    (tokens : List String) (r : FCMResponse) (hne : tokens ≠ [])
    (hfail : r.failure = ((r.results.filter fun x => x.error ≠ "").length : Int)) :
    ∃ out, SendWithResult tokens (.ok r) = .ok out ∧
      out.successCount = r.success ∧ out.failureCount = r.failure ∧
      ∀ p ∈ tokens.zip r.results, p.2.error ≠ "" →
        ({ token := p.1, error := p.2.error } : FailedToken) ∈ out.failedTokens := by
  have hempty : tokens.isEmpty = false := by
    cases tokens with
    | nil => exact absurd rfl hne
    | cons a l => rfl
  refine ⟨_, by rw [SendWithResult, hempty]; rfl, rfl, rfl, ?_⟩
  intro p hp herr
  have hpos : r.failure > 0 := by
    have hmem : p.2 ∈ r.results := (List.of_mem_zip hp).2
    have : p.2 ∈ r.results.filter fun x => x.error ≠ "" :=
      List.mem_filter.2 ⟨hmem, by simpa using herr⟩
    have hlen : 0 < (r.results.filter fun x => x.error ≠ "").length :=
      List.length_pos.2 (List.ne_nil_of_mem this)
    omega
  simp only [if_pos hpos]
  exact collectFailedTokens_mem tokens r.results p hp herr

def twoTokens : List String := ["tokA", "tokB"]

def partialResponse : FCMResponse :=
  { success := 1, failure := 1,
    results := [{ messageId := "m1" }, { error := "Unregistered" }] }

theorem sendWithResult_reports_partial_failure_witness :
    ∃ out, SendWithResult twoTokens (.ok partialResponse) = .ok out ∧
      out.successCount = 1 ∧ out.failureCount = 1 ∧
      ({ token := "tokB", error := "Unregistered" } : FailedToken) ∈ out.failedTokens := by
  obtain ⟨out, hout, hs, hf, hmem⟩ := sendWithResult_reports_partial_failure
    twoTokens partialResponse (by decide) (by decide)
  refine ⟨out, hout, hs, hf, ?_⟩
  exact hmem ("tokB", { error := "Unregistered" }) (by decide) (by decide)
